import Mathlib

/-!
Verification of the `hooks` repository (Conan Bintray-updater hook) against
its specification.  The Python module `src/hooks/bintray_updater.py` is
shallowly embedded below: dictionaries become records whose fields are
`Option`-valued (`none` = key absent), Python values that may be `None`, a
string or a list of strings become the inductive `PyVal`, raised exceptions
become `Except PyErr`, and the ambient effects of the orchestrator
(environment variables, HTTP responses, the Conan inspect API, the git
branch) become explicit oracle inputs.
-/

/-- Decidable equality for `Except`, used to evaluate the embedded
functions on concrete inputs. -/
instance exceptDecEq {ε α : Type} [DecidableEq ε] [DecidableEq α] :
    DecidableEq (Except ε α) := fun a b =>
  match a, b with
  | .error e, .error f =>
    if h : e = f then .isTrue (by rw [h]) else .isFalse (by simp [h])
  | .ok x, .ok y =>
    if h : x = y then .isTrue (by rw [h]) else .isFalse (by simp [h])
  | .error _, .ok _ => .isFalse (by simp)
  | .ok _, .error _ => .isFalse (by simp)

/-- Python value occurring in the Bintray JSON record: `None`, a string, or a
list of strings. -/
inductive PyVal where
  | vnone : PyVal
  | vstr : String → PyVal
  | vlist : List String → PyVal
deriving DecidableEq, Repr

/-- Python equality test between a `PyVal` and a string (`v == s`). -/
def PyVal.eqStr : PyVal → String → Bool
  | .vstr t, s => t == s
  | _, _ => false

/-- Python equality test between a `PyVal` and a list of strings (`v == xs`). -/
def PyVal.eqList : PyVal → List String → Bool
  | .vlist ys, xs => ys == xs
  | _, _ => false

/-- Python exception: its class name and its message. -/
structure PyErr where
  kind : String
  msg : String
deriving DecidableEq, Repr

/-- Exception raised by a failed dictionary lookup `d[key]`. -/
def keyError (k : String) : PyErr := ⟨"KeyError", k⟩

/-- Conan recipe attribute value for `license`: either a single string or a
list of strings (`conanfile.license` may be declared either way). -/
inductive LicenseAttr where
  | lstr : String → LicenseAttr
  | llist : List String → LicenseAttr
deriving DecidableEq, Repr

/-- Recipe attributes returned by `conan_instance.inspect` that the hook
reads; `none` models a `None` attribute. -/
structure RecipeInfo where
  description : Option String
  topics : Option (List String)
  license : Option LicenseAttr
  url : Option String
  homepage : Option String
deriving DecidableEq, Repr

/-- Bintray package record (`remote_info`): each field is `none` when the
key is absent from the JSON dictionary, and `some v` when present with
Python value `v` (possibly `PyVal.vnone`, i.e. JSON `null`). -/
structure RemoteInfo where
  desc : Option PyVal
  labels : Option PyVal
  licenses : Option PyVal
  vcs_url : Option PyVal
  issue_tracker_url : Option PyVal
  maturity : Option PyVal
  website_url : Option PyVal
deriving DecidableEq, Repr

/-- Update payload (`updated_info`): a field is `some v` when the reconciler
staged value `v` for that Bintray key. -/
structure Payload where
  desc : Option String := none
  labels : Option (List String) := none
  licenses : Option (List String) := none
  vcs_url : Option String := none
  issue_tracker_url : Option String := none
  maturity : Option String := none
  website_url : Option String := none
deriving DecidableEq, Repr

/-- Python truthiness of an optional string (`None` and the empty string are
falsy). -/
def strTruthy : Option String → Bool
  | none => false
  | some s => s != ""

/-- Python truthiness of an optional list of strings. -/
def listTruthy : Option (List String) → Bool
  | none => false
  | some xs => xs != []

/-- Python truthiness of the recipe `license` attribute. -/
def licenseTruthy : Option LicenseAttr → Bool
  | none => false
  | some (.lstr s) => s != ""
  | some (.llist xs) => xs != []

/-- Normalisation of the recipe `license` attribute performed by the code:
`if isinstance(licenses, str): licenses = [licenses]`. -/
def pyLicenses : Option LicenseAttr → List String
  | some (.lstr s) => [s]
  | some (.llist xs) => xs
  | none => []

/-- Emptiness test of `set(licenses).intersection(remote_licenses)`.  When
the remote value is a string Python iterates over its characters (each a
one-character string); when it is `None` the call raises a `TypeError`. -/
def licensesOverlap (ls : List String) : PyVal → Except PyErr Bool
  | .vnone => .error ⟨"TypeError", "argument of type NoneType is not iterable"⟩
  | .vstr s => .ok (ls.any fun l => s.toList.any fun c => l == String.mk [c])
  | .vlist xs => .ok (ls.any fun l => xs.contains l)

/-- Index of the last occurrence of a character in a list, as `str.rfind`
computes it (or `none` when absent, where `rfind` returns `-1`). -/
def lastIdxOf (c : Char) : List Char → Option Nat
  | [] => none
  | x :: xs =>
    match lastIdxOf c xs with
    | some i => some (i + 1)
    | none => if x = c then some 0 else none

/-- Python slice `url[:url.rfind(c)]`: everything before the last occurrence
of `c`, and `url[:-1]` (all but the last character) when `c` is absent. -/
def sliceBeforeLast (c : Char) (s : String) : String :=
  match lastIdxOf c s.toList with
  | some i => String.mk (s.toList.take i)
  | none => String.mk (s.toList.take (s.toList.length - 1))

/-- Shared shape of the guarded staging blocks of `_update_package_info`:
when the recipe-side value is truthy (`present`), look up the remote key
(raising `KeyError` when absent) and stage the value when the Python
comparison reports a difference. -/
def fieldStage {α : Type} (present : Bool) (value : α) (rv : Option PyVal)
    (eqv : PyVal → α → Bool) (key : String) : Except PyErr (Option α) :=
  if present then
    match rv with
    | some v => if eqv v value then .ok none else .ok (some value)
    | none => .error (keyError key)
  else .ok none

/-- Block of `_update_package_info` staging `desc` from the recipe
`description`: staged when the recipe value is truthy and differs from
`remote_info["desc"]` (whose lookup raises `KeyError` when absent). -/
def desc_update (recipe : RecipeInfo) (remote : RemoteInfo) :
    Except PyErr (Option String) :=
  fieldStage (strTruthy recipe.description) (recipe.description.getD "")
    remote.desc PyVal.eqStr "desc"

/-- Block of `_update_package_info` staging `labels` from the recipe
`topics` (order-sensitive list comparison against `remote_info["labels"]`). -/
def labels_update (recipe : RecipeInfo) (remote : RemoteInfo) :
    Except PyErr (Option (List String)) :=
  fieldStage (listTruthy recipe.topics) (recipe.topics.getD [])
    remote.labels PyVal.eqList "labels"

/-- Block of `_update_package_info` staging `licenses`: the normalised
recipe licenses are staged when their set intersection with
`remote_info["licenses"]` is empty. -/
def licenses_update (recipe : RecipeInfo) (remote : RemoteInfo) :
    Except PyErr (Option (List String)) :=
  if licenseTruthy recipe.license then
    match remote.licenses with
    | some rv =>
      match licensesOverlap (pyLicenses recipe.license) rv with
      | .ok true => .ok none
      | .ok false => .ok (some (pyLicenses recipe.license))
      | .error e => .error e
    | none => .error (keyError "licenses")
  else .ok none

/-- Block of `_update_package_info` staging `vcs_url`: the recipe `url` is
staged unconditionally whenever it is truthy (no remote lookup at all). -/
def vcs_update (recipe : RecipeInfo) : Option String :=
  if strTruthy recipe.url then some (recipe.url.getD "") else none

/-- Issue-tracker URL derived from the recipe `url`:
`"{}/community/issues".format(url[:url.rfind('/')]) if url else ""`. -/
def derivedIssueTracker (recipe : RecipeInfo) : String :=
  if strTruthy recipe.url then
    sliceBeforeLast '/' (recipe.url.getD "") ++ "/community/issues"
  else ""

/-- Block of `_update_package_info` staging `issue_tracker_url`: the derived
value (overridable through `BINTRAY_ISSUE_TRACKER_URL`, modelled by
`envIssue`) is staged when truthy and different from
`remote_info["issue_tracker_url"]`. -/
def issue_tracker_update (envIssue : Option String) (recipe : RecipeInfo)
    (remote : RemoteInfo) : Except PyErr (Option String) :=
  let itu := envIssue.getD (derivedIssueTracker recipe)
  fieldStage (itu != "") itu remote.issue_tracker_url PyVal.eqStr
    "issue_tracker_url"

/-- Block of `_update_package_info` staging `maturity`: on a stable branch
the value `"Stable"` is staged when the remote key is absent
(`"maturity" not in remote_info`) or its value differs from `"Stable"`. -/
def maturity_update (stable : Bool) (remote : RemoteInfo) : Option String :=
  if stable then
    match remote.maturity with
    | none => some "Stable"
    | some v => if v.eqStr "Stable" then none else some "Stable"
  else none

/-- Block of `_update_package_info` staging `website_url` from the recipe
`homepage`. -/
def website_update (recipe : RecipeInfo) (remote : RemoteInfo) :
    Except PyErr (Option String) :=
  fieldStage (strTruthy recipe.homepage) (recipe.homepage.getD "")
    remote.website_url PyVal.eqStr "website_url"

/-- Embedding of `_update_package_info`.  `envIssue` models the
`BINTRAY_ISSUE_TRACKER_URL` environment variable and `stable` the result of
`_is_stable_branch(_get_branch())`; the field blocks run in source order, so
the first failing dictionary lookup determines the raised exception. -/
def update_package_info (envIssue : Option String) (stable : Bool)
    (recipe : RecipeInfo) (remote : RemoteInfo) : Except PyErr Payload :=
  (desc_update recipe remote).bind fun d =>
  (labels_update recipe remote).bind fun l =>
  (licenses_update recipe remote).bind fun lc =>
  (issue_tracker_update envIssue recipe remote).bind fun it =>
  (website_update recipe remote).bind fun wb =>
  .ok ⟨d, l, lc, vcs_update recipe, it, maturity_update stable remote, wb⟩

/-- Regular-expression item covering the constructs used by the default
stable-branch patterns: a literal character, a starred character (zero or
more repetitions), and the end anchor. -/
inductive RItem where
  | lit : Char → RItem
  | star : Char → RItem
  | eos : RItem
deriving DecidableEq, Repr

/-- Translation of a pattern string into regex items: a character followed
by an asterisk becomes a starred item, a dollar sign becomes the end anchor,
and any other character is a literal. -/
def parsePat : List Char → List RItem
  | [] => []
  | c :: '*' :: rest => .star c :: parsePat rest
  | '$' :: rest => .eos :: parsePat rest
  | c :: rest => .lit c :: parsePat rest

/-- Matching of a starred character: after consuming zero or more copies of
`c` from the front of the input, the continuation must accept the rest. -/
def rmatchStar (c : Char) (cont : List Char → Bool) : List Char → Bool
  | [] => cont []
  | x :: xs => cont (x :: xs) || (x == c && rmatchStar c cont xs)

/-- Matching of a regex-item list at the start of a character list, with
Python `re.match` semantics: the match needs not consume the whole input,
and the end anchor accepts the end of the string or a position just before a
final newline. -/
def rmatch : List RItem → List Char → Bool
  | [], _ => true
  | .lit c :: ps, xs =>
    match xs with
    | [] => false
    | x :: tail => x == c && rmatch ps tail
  | .eos :: ps, xs => (xs == [] || xs == ['\n']) && rmatch ps xs
  | .star c :: ps, xs => rmatchStar c (rmatch ps) xs

/-- Default value of `stable_patterns` in `_is_stable_branch`. -/
def defaultStablePatterns : List String := ["master$", "release*", "stable*"]

/-- Embedding of `_is_stable_branch` composed with the branch lookup result:
`overrideEnv` models `CONAN_STABLE_BRANCH_PATTERN` and `branch` the branch
name obtained from `_get_branch` (`none` when unknown). -/
def is_stable_branch (overrideEnv : Option String) (branch : Option String) :
    Bool :=
  let stable_patterns :=
    match overrideEnv with
    | some p => if p != "" then [p] else defaultStablePatterns
    | none => defaultStablePatterns
  stable_patterns.any fun pat =>
    match branch with
    | some b => b != "" && rmatch (parsePat pat.toList) b.toList
    | none => false

/-- Conan remote object: the fields the hook reads. -/
structure Remote where
  name : String
  url : String
deriving DecidableEq, Repr

/-- Conan package reference: the fields the hook reads. -/
structure ConanRef where
  name : String
  user : String
deriving DecidableEq, Repr

/-- Matching of a list of literal-or-wildcard characters at the front of the
input (a regex wildcard dot accepts any character except a newline);
returns the unconsumed rest on success. -/
def matchWild : List (Option Char) → List Char → Option (List Char)
  | [], rest => some rest
  | some c :: ps, x :: xs => if x == c then matchWild ps xs else none
  | none :: ps, x :: xs => if x != '\n' then matchWild ps xs else none
  | _ :: _, [] => none

/-- Wildcard item for one character of the middle part of the Bintray URL
pattern, where an unescaped dot is a regex wildcard. -/
def wildOfChar (c : Char) : Option Char := if c == '.' then none else some c

/-- Middle part of the pattern of `_extract_user_repo`,
`api.bintray.com\/conan\/`: the two dots are wildcards, the escaped slashes
are literal. -/
def bintrayHostItems : List (Option Char) :=
  "api.bintray.com/conan/".toList.map wildOfChar

/-- Matching of the scheme part `https?:\/\/` of the pattern of
`_extract_user_repo` (the starred `s` is optional); returns the unconsumed
rest on success. -/
def schemeMatch : List Char → Option (List Char)
  | 'h' :: 't' :: 't' :: 'p' :: 's' :: ':' :: '/' :: '/' :: rest => some rest
  | 'h' :: 't' :: 't' :: 'p' :: ':' :: '/' :: '/' :: rest => some rest
  | _ => none

/-- Characters up to the first newline, the furthest span a regex `.*` group
can cover. -/
def takeLine (cs : List Char) : List Char := cs.takeWhile (· != '\n')

/-- Splitting at the last slash, as the greedy groups `(.*)\/(.*)` do:
`none` when the input has no slash. -/
def splitLastSlash (t : List Char) : Option (List Char × List Char) :=
  let after := t.reverse.takeWhile (· != '/')
  if after.length = t.length then none
  else some (t.take (t.length - after.length - 1), after.reverse)

/-- Result of `re.match` for the pattern
`https?:\/\/api.bintray.com\/conan\/(.*)\/(.*)` of `_extract_user_repo`: the
two captured groups on success.  The greedy first group extends to the last
slash reachable without crossing a newline. -/
def bintrayMatch (url : String) : Option (String × String) :=
  match schemeMatch url.toList with
  | none => none
  | some rest =>
    match matchWild bintrayHostItems rest with
    | none => none
    | some rest2 =>
      match splitLastSlash (takeLine rest2) with
      | none => none
      | some (a, b) => some (String.mk a, String.mk b)

/-- Count of `%s` conversion specifiers in a format string. -/
def countSpec : List Char → Nat
  | '%' :: 's' :: rest => countSpec rest + 1
  | _ :: rest => countSpec rest
  | [] => 0

/-- Substitution of the first `%s` specifier by the argument. -/
def substFirstSpec (arg : String) : List Char → List Char
  | '%' :: 's' :: rest => arg.toList ++ rest
  | c :: rest => c :: substFirstSpec arg rest
  | [] => []

/-- Python `fmt % arg` for a single string argument: when the format string
holds no conversion specifier the operator raises
`TypeError: not all arguments converted during string formatting`. -/
def pyPercentFormat (fmt arg : String) : Except PyErr String :=
  if countSpec fmt.toList == 0 then
    .error ⟨"TypeError", "not all arguments converted during string formatting"⟩
  else .ok (String.mk (substFirstSpec arg fmt.toList))

/-- Embedding of `_extract_user_repo`.  On a non-matching URL the source
evaluates `"The remote \x7b\x7d is not a Bintray repository." % remote.name`
to build the ValueError message; that expression itself raises a TypeError
because the format-style placeholder is combined with the percent operator. -/
def extract_user_repo (remote : Remote) : Except PyErr (String × String) :=
  match bintrayMatch remote.url with
  | some gp => .ok gp
  | none =>
    match pyPercentFormat "The remote \x7b\x7d is not a Bintray repository."
        remote.name with
    | .ok m => .error ⟨"ValueError", m⟩
    | .error e => .error e

/-- Embedding of `_get_bintray_package_url`; `apiEnv` models the
`BINTRAY_API_URL` environment variable. -/
def get_bintray_package_url (apiEnv : Option String) (remote : Remote)
    (reference : ConanRef) : Except PyErr String :=
  match extract_user_repo remote with
  | .error e => .error e
  | .ok (user, repo) =>
    .ok ((apiEnv.getD "https://api.bintray.com") ++ "/packages/" ++ user ++
      "/" ++ repo ++ "/" ++ (reference.name ++ "%3A" ++ reference.user))

/-- HTTP response to the unauthenticated GET, with its JSON body already
parsed into a remote record. -/
structure GetResp where
  ok : Bool
  text : String
  status : Nat
  body : RemoteInfo
deriving DecidableEq, Repr

/-- Embedding of `_get_package_info_from_bintray` over a response oracle. -/
def get_package_info_from_bintray (respond : String → GetResp)
    (package_url : String) : Except PyErr RemoteInfo :=
  let r := respond package_url
  if !r.ok then
    .error ⟨"HTTPError", "Could not request package info: " ++ r.text ++
      " (" ++ toString r.status ++ ")"⟩
  else .ok r.body

/-- First truthy value among the environment variables named in the list,
as the username lookup loop of `_get_credentials` computes it. -/
def firstTruthyVar (env : String → Option String) : List String → Option String
  | [] => none
  | v :: vs =>
    match env v with
    | some u => if u != "" then some u else firstTruthyVar env vs
    | none => firstTruthyVar env vs

/-- Embedding of `_get_credentials` over an environment oracle. -/
def get_credentials (env : String → Option String) (remote_name : String) :
    Except PyErr (String × String) :=
  let rn := remote_name.toUpper
  match firstTruthyVar env ["BINTRAY_LOGIN_USERNAME_" ++ rn,
      "BINTRAY_LOGIN_USERNAME", "BINTRAY_USERNAME"] with
  | none =>
    .error ⟨"ValueError", "Could not update Bintray info: username not found"⟩
  | some username =>
    let password :=
      match env ("BINTRAY_PASSWORD_" ++ rn) with
      | some p => some p
      | none => env "BINTRAY_PASSWORD"
    match password with
    | some p =>
      if p != "" then .ok (username, p)
      else .error ⟨"Exception", "Could not update Bintray info: password not found"⟩
    | none =>
      .error ⟨"Exception", "Could not update Bintray info: password not found"⟩

/-- Authenticated PATCH request as handed to the transport layer. -/
structure PatchReq where
  url : String
  body : Payload
  username : String
  password : String
deriving DecidableEq, Repr

/-- HTTP response to the PATCH. -/
structure PatchResp where
  ok : Bool
  text : String
deriving DecidableEq, Repr

/-- Substring test, Python `sub in s`. -/
def containsSub (sub : List Char) : List Char → Bool
  | [] => sub.isEmpty
  | x :: xs => sub.isPrefixOf (x :: xs) || containsSub sub xs

/-- Error raised by `_patch_bintray_package_info` when the URL fails the
HTTPS check. -/
def httpsRequiredErr : PyErr :=
  ⟨"ValueError", "Bad package URL: Only HTTPS is allowed, Bintray API uses Basic Auth"⟩

/-- Part of `_patch_bintray_package_info` after the HTTPS check: credential
resolution followed by the PATCH request.  The first component records the
network calls performed. -/
def patch_request (credEnv : String → Option String)
    (respond : PatchReq → PatchResp) (package_url : String)
    (package_info : Payload) (remote_name : String) :
    List PatchReq × Except PyErr Unit :=
  match get_credentials credEnv remote_name with
  | .error e => ([], .error e)
  | .ok (username, password) =>
    let req : PatchReq := ⟨package_url, package_info, username, password⟩
    let resp := respond req
    if resp.ok then ([req], .ok ())
    else ([req], .error ⟨"HTTPError", "Could not patch package info: " ++ resp.text⟩)

/-- Embedding of `_patch_bintray_package_info`: the check
`'https' not in package_url` (a plain substring test) guards credential
resolution and the network call. -/
def patch_bintray_package_info (credEnv : String → Option String)
    (respond : PatchReq → PatchResp) (package_url : String)
    (package_info : Payload) (remote_name : String) :
    List PatchReq × Except PyErr Unit :=
  if !containsSub "https".toList package_url.toList then
    ([], .error httpsRequiredErr)
  else patch_request credEnv respond package_url package_info remote_name

/-- Python truthiness of the `updated_info` dictionary. -/
def Payload.isEmpty (p : Payload) : Bool :=
  p.desc.isNone && p.labels.isNone && p.licenses.isNone && p.vcs_url.isNone &&
  p.issue_tracker_url.isNone && p.maturity.isNone && p.website_url.isNone

/-- Keys of the `updated_info` dictionary in insertion order, as
`updated_info.keys()` yields them. -/
def Payload.keys (p : Payload) : List String :=
  (if p.desc.isSome then ["desc"] else []) ++
  (if p.labels.isSome then ["labels"] else []) ++
  (if p.licenses.isSome then ["licenses"] else []) ++
  (if p.vcs_url.isSome then ["vcs_url"] else []) ++
  (if p.issue_tracker_url.isSome then ["issue_tracker_url"] else []) ++
  (if p.maturity.isSome then ["maturity"] else []) ++
  (if p.website_url.isSome then ["website_url"] else [])

/-- Line written to the Conan output stream: an informational message or an
error message. -/
inductive LogLine where
  | info : String → LogLine
  | error : String → LogLine
deriving DecidableEq, Repr

/-- Effect inputs of one hook invocation: the host-supplied arguments, the
environment variables, the HTTP responders, the Conan inspect outcome and
the detected git branch. -/
structure World where
  remote : Remote
  reference : ConanRef
  apiEnv : Option String
  getResponse : String → GetResp
  inspectRecipe : Except PyErr RecipeInfo
  issueEnv : Option String
  patternEnv : Option String
  branch : Option String
  credEnv : String → Option String
  patchResponse : PatchReq → PatchResp

/-- Body of the `try` block of `post_upload_recipe`: the informational log
lines emitted so far, paired with the outcome (an uncaught exception, or
normal completion). -/
def hook_body (w : World) : List LogLine × Except PyErr Unit :=
  match get_bintray_package_url w.apiEnv w.remote w.reference with
  | .error e => ([], .error e)
  | .ok package_url =>
    let logs1 := [LogLine.info "Reading package info form Bintray..."]
    match get_package_info_from_bintray w.getResponse package_url with
    | .error e => (logs1, .error e)
    | .ok remote_info =>
      let logs2 := logs1 ++ [LogLine.info "Inspecting recipe info ..."]
      match w.inspectRecipe with
      | .error e => (logs2, .error e)
      | .ok recipe_info =>
        match update_package_info w.issueEnv
            (is_stable_branch w.patternEnv w.branch) recipe_info remote_info with
        | .error e => (logs2, .error e)
        | .ok updated_info =>
          if !updated_info.isEmpty then
            let logs3 := logs2 ++
              [LogLine.info ("Bintray is outdated. Updating Bintray package info: " ++
                String.intercalate " " updated_info.keys)]
            match patch_bintray_package_info w.credEnv w.patchResponse
                package_url updated_info w.remote.name with
            | (_, .error e) => (logs3, .error e)
            | (_, .ok _) => (logs3, .ok ())
          else
            (logs2 ++ [LogLine.info "Bintray package info is up-to-date."], .ok ())

/-- Embedding of `post_upload_recipe`: the body runs inside a `try` whose
handler logs `str(error)` through `output.error` and swallows the
exception, so the hook always returns normally with its log. -/
def post_upload_recipe (w : World) : List LogLine :=
  match hook_body w with
  | (logs, .ok _) => logs
  | (logs, .error e) => logs ++ [LogLine.error e.msg]

/-- Recipe of the end-to-end example of the specification. -/
def exampleRecipe : RecipeInfo :=
  ⟨some "new", some ["a", "b"], some (.lstr "MIT"), some "https://x/y",
    some "https://x"⟩

/-- Remote record of the end-to-end example of the specification: every key
present, most values `null`. -/
def exampleRemote : RemoteInfo :=
  ⟨some (.vstr "old"), some (.vlist []), some (.vlist ["MIT"]),
    some .vnone, some .vnone, some .vnone, some .vnone⟩

/-- Payload the end-to-end example is expected to produce. -/
def examplePayload : Payload :=
  ⟨some "new", some ["a", "b"], none, some "https://x/y",
    some "https://x/community/issues", none, some "https://x"⟩

/-- Recipe declaring only a single-string license. -/
def licRecipe : RecipeInfo := ⟨none, none, some (.lstr "MIT"), none, none⟩

/-- Remote record whose license list is disjoint from `licRecipe`. -/
def licRemote : RemoteInfo :=
  ⟨some .vnone, some .vnone, some (.vlist ["BSD"]), some .vnone,
    some .vnone, some .vnone, some .vnone⟩

/-- Payload produced by reconciling `licRecipe` against `licRemote`. -/
def licPayload : Payload := { licenses := some ["MIT"] }

/-- Recipe with no attribute set. -/
def emptyRecipe : RecipeInfo := ⟨none, none, none, none, none⟩

/-- Remote record with the `maturity` and `vcs_url` keys absent and every
other key present. -/
def matRemote : RemoteInfo :=
  ⟨some .vnone, some .vnone, some (.vlist []), none, some .vnone, none,
    some .vnone⟩

/-- Payload produced by reconciling `emptyRecipe` against `matRemote` on a
stable branch. -/
def matPayload : Payload := { maturity := some "Stable" }

/-- Decision of `Except` success, used to state that the reconciler
completes without raising. -/
def pyIsOk {α : Type} : Except PyErr α → Bool
  | .ok _ => true
  | .error _ => false

/-- World whose remote URL does not match the Bintray pattern, making the
very first step of the orchestrator raise. -/
def unmatchedWorld : World :=
  { remote := ⟨"myremote", "ftp://example.com"⟩
    reference := ⟨"pkg", "user"⟩
    apiEnv := none
    getResponse := fun _ => ⟨true, "", 200, exampleRemote⟩
    inspectRecipe := .ok emptyRecipe
    issueEnv := none
    patternEnv := none
    branch := none
    credEnv := fun _ => none
    patchResponse := fun _ => ⟨true, ""⟩ }

/-- Plaintext package URL whose text nevertheless contains `https`. -/
def plaintextUrl : String := "http://api.bintray.com/packages/u/r/p%3Ahttps"

/-- Environment providing generic Bintray credentials. -/
def plaintextEnv : String → Option String := fun v =>
  if v == "BINTRAY_LOGIN_USERNAME" then some "alice"
  else if v == "BINTRAY_PASSWORD" then some "secret" else none

theorem bindOkElim {α β : Type} {e : Except PyErr α} {f : α → Except PyErr β}
    {b : β} (h : e.bind f = .ok b) : ∃ a, e = .ok a ∧ f a = .ok b := by
  cases e with
  | error s => exact absurd h (by simp [Except.bind])
  | ok a => exact ⟨a, rfl, h⟩

theorem strTruthy_some {o : Option String} (h : strTruthy o = true) :
    o = some (o.getD "") ∧ o.getD "" ≠ "" := by
  cases o with
  | none => simp [strTruthy] at h
  | some s => exact ⟨rfl, by simpa [strTruthy] using h⟩

theorem listTruthy_some {o : Option (List String)} (h : listTruthy o = true) :
    o = some (o.getD []) ∧ o.getD [] ≠ [] := by
  cases o with
  | none => simp [listTruthy] at h
  | some xs => exact ⟨rfl, by simpa [listTruthy] using h⟩

theorem pyLicenses_ne_nil {o : Option LicenseAttr}
    (h : licenseTruthy o = true) : pyLicenses o ≠ [] := by
  match o with
  | none => simp [licenseTruthy] at h
  | some (.lstr s) => simp [pyLicenses]
  | some (.llist xs) => simpa [licenseTruthy, pyLicenses] using h

theorem eqStr_true_eq {v : PyVal} {s : String} (h : v.eqStr s = true) :
    v = .vstr s := by
  cases v with
  | vnone => simp [PyVal.eqStr] at h
  | vstr t => simp [PyVal.eqStr] at h; rw [h]
  | vlist xs => simp [PyVal.eqStr] at h

theorem eqStr_false_ne {v : PyVal} {s : String} (h : v.eqStr s = false) :
    v ≠ .vstr s := by
  intro hv; subst hv; simp [PyVal.eqStr] at h

theorem eqList_false_ne {v : PyVal} {xs : List String}
    (h : v.eqList xs = false) : v ≠ .vlist xs := by
  intro hv; subst hv; simp [PyVal.eqList] at h

theorem fieldStage_some_eq {α : Type} (present : Bool) (value : α)
    (v : PyVal) (eqv : PyVal → α → Bool) (key : String) :
    fieldStage present value (some v) eqv key =
      if present then (if eqv v value then .ok none else .ok (some value))
      else .ok none := by
  unfold fieldStage
  split <;> rfl

theorem fieldStage_ok_some {α : Type} {present : Bool} {value : α}
    {rv : Option PyVal} {eqv : PyVal → α → Bool} {key : String} {d : α}
    (h : fieldStage present value rv eqv key = .ok (some d)) :
    present = true ∧ d = value ∧ ∃ v, rv = some v ∧ eqv v value = false := by
  cases rv with
  | none =>
    unfold fieldStage at h
    split at h <;> simp at h
  | some v =>
    rw [fieldStage_some_eq] at h
    split at h
    · rename_i hp
      split at h
      · simp at h
      · rename_i hne
        have hvd : value = d := by simpa using h
        exact ⟨hp, hvd.symm, v, rfl, by simpa using hne⟩
    · simp at h

theorem fieldStage_isOk {α : Type} (present : Bool) (value : α)
    {rv : Option PyVal} (eqv : PyVal → α → Bool) (key : String)
    (hrv : rv.isSome = true) :
    ∃ x, fieldStage present value rv eqv key = .ok x := by
  unfold fieldStage
  cases present with
  | false => exact ⟨none, by simp⟩
  | true =>
    cases rv with
    | none => simp at hrv
    | some v =>
      by_cases he : eqv v value = true
      · exact ⟨none, by simp [he]⟩
      · exact ⟨some value, by simp [he]⟩

theorem any_contains_self {ls : List String} (h : ls ≠ []) :
    (ls.any fun l => ls.contains l) = true := by
  cases ls with
  | nil => simp at h
  | cons a t => simp

theorem licenses_update_ok_some {recipe : RecipeInfo} {remote : RemoteInfo}
    {ls : List String} (h : licenses_update recipe remote = .ok (some ls)) :
    ls = pyLicenses recipe.license ∧ ls ≠ [] ∧
      remote.licenses ≠ some (.vlist ls) := by
  unfold licenses_update at h
  split at h
  · rename_i ht
    split at h
    · rename_i rv hr
      split at h
      · simp at h
      · rename_i hov
        have hls : pyLicenses recipe.license = ls := by simpa using h
        refine ⟨hls.symm, hls ▸ pyLicenses_ne_nil ht, ?_⟩
        rw [hr]
        intro hcon
        have hrv : rv = PyVal.vlist ls := by simpa using hcon
        subst hrv
        rw [← hls] at hov
        have hself : licensesOverlap (pyLicenses recipe.license)
            (PyVal.vlist (pyLicenses recipe.license)) = .ok true := by
          simp [licensesOverlap]
          exact List.exists_mem_of_ne_nil _ (pyLicenses_ne_nil ht)
        rw [hself] at hov
        simp at hov
      · simp at h
    · simp at h
  · simp at h

theorem licenses_update_with_list {recipe : RecipeInfo} {remote : RemoteInfo}
    {rls : List String} (hlic : licenseTruthy recipe.license = true)
    (hrem : remote.licenses = some (.vlist rls)) :
    licenses_update recipe remote =
      .ok (if (pyLicenses recipe.license).any (fun l => rls.contains l)
        then none else some (pyLicenses recipe.license)) := by
  unfold licenses_update
  rw [if_pos hlic]
  simp only [hrem]
  have hov : licensesOverlap (pyLicenses recipe.license) (PyVal.vlist rls) =
      .ok ((pyLicenses recipe.license).any fun l => rls.contains l) := rfl
  rw [hov]
  cases hb : (pyLicenses recipe.license).any fun l => rls.contains l with
  | true => rfl
  | false => rfl

theorem maturity_update_eq (stable : Bool) (remote : RemoteInfo) :
    (maturity_update stable remote = some "Stable" ↔
      (stable = true ∧ remote.maturity ≠ some (.vstr "Stable"))) ∧
    ∀ m, maturity_update stable remote = some m → m = "Stable" := by
  unfold maturity_update
  cases stable with
  | false => simp
  | true =>
    cases hr : remote.maturity with
    | none => simp
    | some v =>
      by_cases he : v.eqStr "Stable" = true
      · have hv := eqStr_true_eq he
        subst hv
        simp [he]
      · have hv := eqStr_false_ne (by simpa using he)
        simp [he, hv]

theorem vcs_update_eq (recipe : RecipeInfo) :
    vcs_update recipe = if strTruthy recipe.url then recipe.url else none := by
  unfold vcs_update
  by_cases ht : strTruthy recipe.url = true
  · rw [if_pos ht, if_pos ht]
    exact ((strTruthy_some ht).1).symm
  · rw [if_neg ht, if_neg ht]

theorem update_ok_parts {envIssue : Option String} {stable : Bool}
    {recipe : RecipeInfo} {remote : RemoteInfo} {p : Payload}
    (h : update_package_info envIssue stable recipe remote = .ok p) :
    desc_update recipe remote = .ok p.desc ∧
    labels_update recipe remote = .ok p.labels ∧
    licenses_update recipe remote = .ok p.licenses ∧
    p.vcs_url = vcs_update recipe ∧
    issue_tracker_update envIssue recipe remote = .ok p.issue_tracker_url ∧
    p.maturity = maturity_update stable remote ∧
    website_update recipe remote = .ok p.website_url := by
  unfold update_package_info at h
  obtain ⟨d, hd, h⟩ := bindOkElim h
  obtain ⟨l, hl, h⟩ := bindOkElim h
  obtain ⟨lc, hlc, h⟩ := bindOkElim h
  obtain ⟨it, hit, h⟩ := bindOkElim h
  obtain ⟨wb, hwb, h⟩ := bindOkElim h
  injection h with h
  subst h
  exact ⟨hd, hl, hlc, rfl, hit, rfl, hwb⟩

/-- C1: with no environment override, every field of the reconciler's
payload is recipe-derived, truthy and different from the remote value;
`vcs_url` is staged exactly when the recipe declares a truthy `url` (no
equality check), and `maturity` is staged only in the stable-branch case
with the fixed value `"Stable"`. -/
theorem update_payload_only_diffs (stable : Bool) (recipe : RecipeInfo)
    (remote : RemoteInfo) (p : Payload)
    (h : update_package_info none stable recipe remote = .ok p) :
    (∀ d, p.desc = some d →
      recipe.description = some d ∧ d ≠ "" ∧ remote.desc ≠ some (.vstr d)) ∧
    (∀ ts, p.labels = some ts →
      recipe.topics = some ts ∧ ts ≠ [] ∧ remote.labels ≠ some (.vlist ts)) ∧
    (∀ ls, p.licenses = some ls →
      ls = pyLicenses recipe.license ∧ ls ≠ [] ∧
        remote.licenses ≠ some (.vlist ls)) ∧
    (p.vcs_url = if strTruthy recipe.url then recipe.url else none) ∧
    (∀ t, p.issue_tracker_url = some t →
      t = derivedIssueTracker recipe ∧ t ≠ "" ∧
        remote.issue_tracker_url ≠ some (.vstr t)) ∧
    (∀ m, p.maturity = some m →
      m = "Stable" ∧ stable = true ∧
        remote.maturity ≠ some (.vstr "Stable")) ∧
    (∀ w, p.website_url = some w →
      recipe.homepage = some w ∧ w ≠ "" ∧
        remote.website_url ≠ some (.vstr w)) := by
  obtain ⟨hd, hl, hlc, hv, hit, hm, hw⟩ := update_ok_parts h
  refine ⟨?_, ?_, ?_, ?_, ?_, ?_, ?_⟩
  · intro d hpd
    rw [hpd] at hd
    obtain ⟨hp, hdv, v, hrv, hne⟩ := fieldStage_ok_some hd
    obtain ⟨ho, hne2⟩ := strTruthy_some hp
    subst hdv
    refine ⟨ho, hne2, ?_⟩
    rw [hrv]
    intro hc
    have hv2 : v = PyVal.vstr (recipe.description.getD "") := by simpa using hc
    exact eqStr_false_ne hne hv2
  · intro ts hpt
    rw [hpt] at hl
    obtain ⟨hp, hdv, v, hrv, hne⟩ := fieldStage_ok_some hl
    obtain ⟨ho, hne2⟩ := listTruthy_some hp
    subst hdv
    refine ⟨ho, hne2, ?_⟩
    rw [hrv]
    intro hc
    have hv2 : v = PyVal.vlist (recipe.topics.getD []) := by simpa using hc
    exact eqList_false_ne hne hv2
  · intro ls hpl
    rw [hpl] at hlc
    exact licenses_update_ok_some hlc
  · rw [hv, vcs_update_eq]
  · intro t hpt
    rw [hpt] at hit
    obtain ⟨hp, hdv, v, hrv, hne⟩ := fieldStage_ok_some hit
    subst hdv
    refine ⟨rfl, by simpa using hp, ?_⟩
    rw [hrv]
    intro hc
    have hv2 : v = PyVal.vstr (derivedIssueTracker recipe) := by simpa using hc
    exact eqStr_false_ne hne hv2
  · intro m hpm
    rw [hm] at hpm
    have hmat := maturity_update_eq stable remote
    have hms := hmat.2 m hpm
    subst hms
    have hiff := hmat.1.mp hpm
    exact ⟨rfl, hiff.1, hiff.2⟩
  · intro w hpw
    rw [hpw] at hw
    obtain ⟨hp, hdv, v, hrv, hne⟩ := fieldStage_ok_some hw
    obtain ⟨ho, hne2⟩ := strTruthy_some hp
    subst hdv
    refine ⟨ho, hne2, ?_⟩
    rw [hrv]
    intro hc
    have hv2 : v = PyVal.vstr (recipe.homepage.getD "") := by simpa using hc
    exact eqStr_false_ne hne hv2

theorem update_payload_only_diffs_witness :
    exampleRecipe.description = some "new" ∧ "new" ≠ "" ∧
      exampleRemote.desc ≠ some (.vstr "new") :=
  (update_payload_only_diffs false exampleRecipe exampleRemote examplePayload
    (by decide)).1 "new" rfl

/-- C2: for a recipe with a truthy license and a list-valued remote license
field, the reconciler stages nothing for `licenses` when the two sets
overlap, and stages the normalised recipe licenses when they are disjoint. -/
theorem licenses_staged_iff_no_overlap (envIssue : Option String)
    (stable : Bool) (recipe : RecipeInfo) (remote : RemoteInfo)
    (rls : List String) (p : Payload)
    (hlic : licenseTruthy recipe.license = true)
    (hrem : remote.licenses = some (.vlist rls))
    (h : update_package_info envIssue stable recipe remote = .ok p) :
    ((∃ x ∈ pyLicenses recipe.license, x ∈ rls) → p.licenses = none) ∧
    ((∀ x ∈ pyLicenses recipe.license, x ∉ rls) →
      p.licenses = some (pyLicenses recipe.license)) := by
  obtain ⟨hd, hl, hlc, hv, hit, hm, hw⟩ := update_ok_parts h
  rw [licenses_update_with_list hlic hrem] at hlc
  have hpl : p.licenses =
      if (pyLicenses recipe.license).any (fun l => rls.contains l)
      then none else some (pyLicenses recipe.license) := by
    simpa using hlc.symm
  constructor
  · intro hex
    have hb : (pyLicenses recipe.license).any (fun l => rls.contains l) = true := by
      simpa using hex
    rw [hpl, if_pos hb]
  · intro hall
    have hb : (pyLicenses recipe.license).any (fun l => rls.contains l) = false := by
      simpa using hall
    rw [hpl, hb]
    simp

theorem licenses_staged_iff_no_overlap_witness :
    licPayload.licenses = some (pyLicenses licRecipe.license) :=
  (licenses_staged_iff_no_overlap none false licRecipe licRemote ["BSD"]
    licPayload (by decide) rfl (by decide)).2 (by decide)

/-- C3: the reconciler stages `maturity` exactly when the branch is stable
and the remote value is absent or differs from `"Stable"`, and the staged
value is always `"Stable"`. -/
theorem maturity_staging (envIssue : Option String) (stable : Bool)
    (recipe : RecipeInfo) (remote : RemoteInfo) (p : Payload)
    (h : update_package_info envIssue stable recipe remote = .ok p) :
    (p.maturity = some "Stable" ↔
      (stable = true ∧ remote.maturity ≠ some (.vstr "Stable"))) ∧
    ∀ m, p.maturity = some m → m = "Stable" := by
  obtain ⟨hd, hl, hlc, hv, hit, hm, hw⟩ := update_ok_parts h
  rw [hm]
  exact maturity_update_eq stable remote

theorem maturity_staging_witness : matPayload.maturity = some "Stable" :=
  (maturity_staging none true emptyRecipe matRemote matPayload
    (by decide)).1.mpr ⟨rfl, by decide⟩

/-- C4: a truthy recipe `url` is always staged as `vcs_url`, with no
comparison against the remote record. -/
theorem vcs_url_always_staged (envIssue : Option String) (stable : Bool)
    (recipe : RecipeInfo) (remote : RemoteInfo) (u : String) (p : Payload)
    (hurl : recipe.url = some u) (hne : u ≠ "")
    (h : update_package_info envIssue stable recipe remote = .ok p) :
    p.vcs_url = some u := by
  obtain ⟨hd, hl, hlc, hv, hit, hm, hw⟩ := update_ok_parts h
  rw [hv, vcs_update_eq, hurl]
  have ht : strTruthy (some u) = true := by simpa [strTruthy] using hne
  rw [if_pos ht]

theorem vcs_url_always_staged_witness : examplePayload.vcs_url = some "https://x/y" :=
  vcs_url_always_staged none false exampleRecipe exampleRemote "https://x/y"
    examplePayload rfl (by decide) (by decide)

/-- C5: end-to-end reconciliation of the specification example on a
non-stable branch produces exactly the expected payload, with `licenses`
omitted because the license sets overlap. -/
theorem end_to_end_example_payload :
    update_package_info none (is_stable_branch none (some "develop"))
      exampleRecipe exampleRemote = .ok examplePayload := by
  decide

theorem rmatch_nil_pattern (cs : List Char) : rmatch [] cs = true := rfl

theorem rmatch_star_only (c : Char) (cs : List Char) :
    rmatch [RItem.star c] cs = true := by
  cases cs with
  | nil => rfl
  | cons x xs => simp [rmatch, rmatchStar]

theorem rmatch_lits_append (s : List Char) (ps : List RItem) (cs : List Char) :
    rmatch (s.map RItem.lit ++ ps) cs = true ↔
      (s <+: cs ∧ rmatch ps (cs.drop s.length) = true) := by
  induction s generalizing cs with
  | nil => simp
  | cons a t ih =>
    cases cs with
    | nil => simp [rmatch]
    | cons x xs =>
      simp only [List.map_cons, List.cons_append, rmatch, List.append_eq,
        Bool.and_eq_true, beq_iff_eq, List.cons_prefix_cons, List.length_cons,
        List.drop_succ_cons, ih]
      constructor
      · rintro ⟨h1, h2, h3⟩
        exact ⟨⟨h1.symm, h2⟩, h3⟩
      · rintro ⟨⟨h1, h2⟩, h3⟩
        exact ⟨h1.symm, h2, h3⟩

theorem prefix_drop_eq {s t cs : List Char} :
    (s <+: cs ∧ cs.drop s.length = t) ↔ cs = s ++ t := by
  constructor
  · rintro ⟨⟨r, rfl⟩, hd⟩
    rw [List.drop_left] at hd
    rw [hd]
  · rintro rfl
    exact ⟨⟨t, rfl⟩, List.drop_left s t⟩

theorem parse_master_pattern :
    parsePat "master$".toList = "master".toList.map RItem.lit ++ [RItem.eos] := by
  decide

theorem parse_release_pattern :
    parsePat "release*".toList =
      "releas".toList.map RItem.lit ++ [RItem.star 'e'] := by
  decide

theorem parse_stable_pattern :
    parsePat "stable*".toList =
      "stabl".toList.map RItem.lit ++ [RItem.star 'e'] := by
  decide

theorem rmatch_eos_iff (ds : List Char) :
    rmatch [RItem.eos] ds = true ↔ (ds = [] ∨ ds = ['\n']) := by
  simp [rmatch]

theorem rmatch_master_iff (cs : List Char) :
    rmatch (parsePat "master$".toList) cs = true ↔
      (cs = "master".toList ∨ cs = "master".toList ++ ['\n']) := by
  rw [parse_master_pattern, rmatch_lits_append, rmatch_eos_iff, and_or_left,
    prefix_drop_eq, prefix_drop_eq, List.append_nil]

theorem rmatch_release_iff (cs : List Char) :
    rmatch (parsePat "release*".toList) cs = true ↔
      "releas".toList <+: cs := by
  rw [parse_release_pattern, rmatch_lits_append]
  simp [rmatch_star_only]

theorem rmatch_stable_iff (cs : List Char) :
    rmatch (parsePat "stable*".toList) cs = true ↔
      "stabl".toList <+: cs := by
  rw [parse_stable_pattern, rmatch_lits_append]
  simp [rmatch_star_only]

/-- C6 (amended): with no override pattern, the classifier accepts exactly
the branches equal to `master` (the first default pattern is end-anchored,
also accepting a trailing newline as the regex end anchor does) or starting
with `releas` or `stabl` (the starred final `e` of `release*` and `stable*`
may repeat zero times); an absent branch is never stable. -/
theorem stable_branch_default_classification (b : Option String) :
    is_stable_branch none b = true ↔
      ∃ s, b = some s ∧
        (s.toList = "master".toList ∨
         s.toList = "master".toList ++ ['\n'] ∨
         "releas".toList <+: s.toList ∨ "stabl".toList <+: s.toList) := by
  cases b with
  | none =>
    constructor
    · intro h
      exact absurd h (by decide)
    · rintro ⟨s, hs, _⟩
      exact absurd hs (by simp)
  | some s =>
    have hform : is_stable_branch none (some s) =
        (s != "" && rmatch (parsePat "master$".toList) s.toList ||
         (s != "" && rmatch (parsePat "release*".toList) s.toList ||
          (s != "" && rmatch (parsePat "stable*".toList) s.toList ||
           false))) := rfl
    rw [hform]
    simp only [Bool.or_false, Bool.or_eq_true, Bool.and_eq_true, bne_iff_ne]
    constructor
    · rintro (⟨hne, hm⟩ | ⟨hne, hm⟩ | ⟨hne, hm⟩)
      · rcases (rmatch_master_iff s.toList).mp hm with h1 | h1
        · exact ⟨s, rfl, Or.inl h1⟩
        · exact ⟨s, rfl, Or.inr (Or.inl h1)⟩
      · exact ⟨s, rfl, Or.inr (Or.inr (Or.inl ((rmatch_release_iff s.toList).mp hm)))⟩
      · exact ⟨s, rfl, Or.inr (Or.inr (Or.inr ((rmatch_stable_iff s.toList).mp hm)))⟩
    · rintro ⟨s2, heq, hdis⟩
      injection heq with heq2
      subst heq2
      rcases hdis with h1 | h1 | h1 | h1
      · have hne : s ≠ "" := by
          intro he; subst he; exact absurd h1 (by decide)
        exact Or.inl ⟨hne, (rmatch_master_iff s.toList).mpr (Or.inl h1)⟩
      · have hne : s ≠ "" := by
          intro he; subst he; exact absurd h1 (by decide)
        exact Or.inl ⟨hne, (rmatch_master_iff s.toList).mpr (Or.inr h1)⟩
      · have hne : s ≠ "" := by
          intro he; subst he; exact absurd h1 (by decide)
        exact Or.inr (Or.inl ⟨hne, (rmatch_release_iff s.toList).mpr h1⟩)
      · have hne : s ≠ "" := by
          intro he; subst he; exact absurd h1 (by decide)
        exact Or.inr (Or.inr ⟨hne, (rmatch_stable_iff s.toList).mpr h1⟩)

/-- C6 counterexample: the branch `masterX` starts with the prefix `master`
yet the classifier rejects it, because the first default pattern is
end-anchored rather than a branch-start match. -/
theorem stable_branch_start_match_cex :
    "master".toList.isPrefixOf "masterX".toList = true ∧
    is_stable_branch none (some "masterX") = false := by
  decide

/-- C7: every failure raised inside the orchestrated sequence is caught at
the top level of `post_upload_recipe` and converted into exactly one logged
error line appended to the informational log, and the hook returns normally
with that log. -/
theorem post_upload_swallows_errors (w : World) (e : PyErr)
    (h : (hook_body w).2 = .error e) :
    post_upload_recipe w = (hook_body w).1 ++ [LogLine.error e.msg] := by
  unfold post_upload_recipe
  rcases hw : hook_body w with ⟨logs, r⟩
  rw [hw] at h
  cases r with
  | ok u => simp at h
  | error e2 =>
    have he : e2 = e := by simpa using h
    subst he
    rfl

theorem post_upload_swallows_errors_witness :
    (hook_body unmatchedWorld).2 =
      .error ⟨"TypeError",
        "not all arguments converted during string formatting"⟩ ∧
    post_upload_recipe unmatchedWorld =
      (hook_body unmatchedWorld).1 ++
        [LogLine.error "not all arguments converted during string formatting"] :=
  ⟨by decide, post_upload_swallows_errors unmatchedWorld
    ⟨"TypeError", "not all arguments converted during string formatting"⟩
    (by decide)⟩

/-- C8 (amended): the write refuses with the configuration error exactly
when the package URL does not contain the substring `https`, before
resolving credentials or performing any network call; whenever the
substring occurs anywhere in the URL the check passes and the request logic
proceeds, even on a plaintext endpoint. -/
theorem patch_https_substring_check (credEnv : String → Option String)
    (respond : PatchReq → PatchResp) (package_url : String)
    (package_info : Payload) (remote_name : String) :
    (containsSub "https".toList package_url.toList = false →
      patch_bintray_package_info credEnv respond package_url package_info
        remote_name = ([], .error httpsRequiredErr)) ∧
    (containsSub "https".toList package_url.toList = true →
      patch_bintray_package_info credEnv respond package_url package_info
        remote_name =
        patch_request credEnv respond package_url package_info remote_name) := by
  unfold patch_bintray_package_info
  constructor
  · intro h
    rw [h]
    rfl
  · intro h
    rw [h]
    rfl

theorem patch_https_substring_check_witness :
    containsSub "https".toList "http://x".toList = false ∧
    patch_bintray_package_info (fun _ => none) (fun _ => ⟨true, ""⟩)
      "http://x" {} "r" = ([], .error httpsRequiredErr) :=
  ⟨by decide, (patch_https_substring_check (fun _ => none)
    (fun _ => ⟨true, ""⟩) "http://x" {} "r").1 (by decide)⟩

/-- C8 counterexample: a non-HTTPS endpoint (the URL starts with plain
`http`) that merely contains the substring `https` later on passes the
check: no configuration error is raised and the authenticated PATCH is
handed to the transport over the plaintext endpoint. -/
theorem patch_https_check_cex :
    "https".toList.isPrefixOf plaintextUrl.toList = false ∧
    patch_bintray_package_info plaintextEnv (fun _ => ⟨true, "done"⟩)
      plaintextUrl {} "r" =
      ([⟨plaintextUrl, {}, "alice", "secret"⟩], .ok ()) := by
  decide

/-- C9: on a remote whose URL does not match the Bintray pattern the parser
raises a TypeError whose message does not identify the remote: building the
intended ValueError message fails, because the source combines a
format-style placeholder with the percent operator.  On a matching URL the
captured pair is returned as claimed. -/
theorem extract_user_repo_typeerror :
    bintrayMatch "ftp://example.com" = none ∧
    extract_user_repo ⟨"myremote", "ftp://example.com"⟩ =
      .error ⟨"TypeError",
        "not all arguments converted during string formatting"⟩ ∧
    extract_user_repo
        ⟨"conan-center", "https://api.bintray.com/conan/conan/conan-center"⟩ =
      .ok ("conan", "conan-center") := by
  decide

/-- C10 counterexample: a remote record lacking only the `desc` key makes
the reconciler raise a KeyError as soon as the recipe carries a
description, so the reconciler does assume the presence of keys other than
`maturity`. -/
theorem reconciler_missing_desc_cex :
    update_package_info none false ⟨some "new", none, none, none, none⟩
      ⟨none, some .vnone, some .vnone, some .vnone, some .vnone, some .vnone,
        some .vnone⟩ = .error (keyError "desc") := by
  decide

theorem ok_bind_py {α β : Type} (a : α) (f : α → Except PyErr β) :
    (Except.ok a : Except PyErr α).bind f = f a := rfl

theorem licenses_update_isOk {recipe : RecipeInfo} {remote : RemoteInfo}
    (h : ∃ xs, remote.licenses = some (.vlist xs)) :
    ∃ x, licenses_update recipe remote = .ok x := by
  obtain ⟨xs, hxs⟩ := h
  by_cases ht : licenseTruthy recipe.license = true
  · rw [licenses_update_with_list ht hxs]
    exact ⟨_, rfl⟩
  · unfold licenses_update
    rw [if_neg ht]
    exact ⟨none, rfl⟩

/-- C10 (amended): the reconciler tolerates absence of the `maturity` and
`vcs_url` keys unconditionally: whenever the five remote keys it may read
are present (with a list-valued `licenses`), it completes without raising,
for every recipe, branch classification and environment override; absence
of any of those five keys can instead raise, as the counterexample shows. -/
theorem reconciler_tolerates_missing_maturity (envIssue : Option String)
    (stable : Bool) (recipe : RecipeInfo) (remote : RemoteInfo)
    (hdesc : remote.desc.isSome = true) (hlab : remote.labels.isSome = true)
    (hlic : ∃ xs, remote.licenses = some (.vlist xs))
    (hitu : remote.issue_tracker_url.isSome = true)
    (hweb : remote.website_url.isSome = true) :
    pyIsOk (update_package_info envIssue stable recipe remote) = true := by
  obtain ⟨d, hd⟩ := fieldStage_isOk (strTruthy recipe.description)
    (recipe.description.getD "") PyVal.eqStr "desc" hdesc
  obtain ⟨l, hl⟩ := fieldStage_isOk (listTruthy recipe.topics)
    (recipe.topics.getD []) PyVal.eqList "labels" hlab
  obtain ⟨lc, hlc⟩ := licenses_update_isOk hlic
  obtain ⟨it, hit⟩ := fieldStage_isOk
    ((envIssue.getD (derivedIssueTracker recipe)) != "")
    (envIssue.getD (derivedIssueTracker recipe)) PyVal.eqStr
    "issue_tracker_url" hitu
  obtain ⟨wb, hwb⟩ := fieldStage_isOk (strTruthy recipe.homepage)
    (recipe.homepage.getD "") PyVal.eqStr "website_url" hweb
  have hd2 : desc_update recipe remote = .ok d := hd
  have hl2 : labels_update recipe remote = .ok l := hl
  have hit2 : issue_tracker_update envIssue recipe remote = .ok it := hit
  have hwb2 : website_update recipe remote = .ok wb := hwb
  unfold update_package_info
  rw [hd2, ok_bind_py, hl2, ok_bind_py, hlc, ok_bind_py, hit2, ok_bind_py,
    hwb2, ok_bind_py]
  rfl

theorem reconciler_tolerates_missing_maturity_witness :
    matRemote.maturity = none ∧ matRemote.vcs_url = none ∧
    pyIsOk (update_package_info none true emptyRecipe matRemote) = true :=
  ⟨rfl, rfl, reconciler_tolerates_missing_maturity none true emptyRecipe
    matRemote rfl rfl ⟨[], rfl⟩ rfl rfl⟩
